import Mathlib

/-!
# Verification of the MyPersonalizedGamingAdvisor ingestion and recommendation core

Shallow embedding of the repository's Python sources:
* `steam_connection.py` — field extractors and the ingestion loop,
* `database/schemas.py` — pydantic validation (`GameIn`, `SystemRequirementIn`),
* `database/data_handling.py` — persistence (`save_game_details`,
  `get_user_library`, `get_top_library_genres`),
* `recommender.py` — `get_recommendations_for_user`.

Conventions of the embedding:
* Raw Steam payloads are weakly typed Python values; they are modelled by the
  inductive type `PyVal` covering `None`, `bool`, `int`, `str`, `list` and
  `dict` (with string keys).  Python `float` payload values are not needed by
  any claim and are omitted from the universe.
* Python exceptions are modelled with `Except PyErr`.
* Python `float` results (`price`, recommendation scores) are modelled by `ℚ`;
  the rational value is the exact value of the arithmetic expression the code
  computes in floating point.
* External library calls are parameters: `getText` stands for
  `BeautifulSoup(...).get_text(separator=" ", strip=True)` on a string, and
  `fmtDate` for the four `datetime.strptime` attempts of `_parse_release_date`
  (returning the ISO rendering on the first successful format, `none` if all
  four fail).  BeautifulSoup's behaviour of raising `TypeError` when handed a
  non-string (it calls `len(markup)` on it) is part of the embedding.
* The database is modelled as a `Store` of ordered rows; autoincrement ids are
  `Store.nextGameId`.
-/

/-- A weakly typed Python value, as found in raw Steam JSON payloads. -/
inductive PyVal where
  | none
  | bool (b : Bool)
  | int (n : Int)
  | str (s : String)
  | list (xs : List PyVal)
  | dict (xs : List (String × PyVal))

/-- A Python `dict` with string keys. -/
abbrev PyDict := List (String × PyVal)

/-- Python truthiness (`bool(v)`). -/
def PyVal.truthy : PyVal → Bool
  | .none => false
  | .bool b => b
  | .int n => n != 0
  | .str s => !s.isEmpty
  | .list xs => !xs.isEmpty
  | .dict xs => !xs.isEmpty

/-- `d.get(k, dflt)` on a Python dict. -/
def pyGetD (d : PyDict) (k : String) (dflt : PyVal) : PyVal :=
  (d.lookup k).getD dflt

/-- `d.get(k)` on a Python dict (default `None`). -/
def pyGet (d : PyDict) (k : String) : PyVal :=
  pyGetD d k .none

/-- Python `a or b` (first truthy operand, else the last). -/
def pyOr (a b : PyVal) : PyVal :=
  if a.truthy then a else b

/-- Characters Python's `str.strip()` removes (ASCII whitespace, vertical
tab, form feed and the non-breaking space). -/
def pyIsSpace (c : Char) : Bool :=
  c.isWhitespace || c = '\x0b' || c = '\x0c' || c = '\u00A0'

/-- Python `str.strip()`. -/
def pyStrip (s : String) : String :=
  String.mk (((s.data.dropWhile pyIsSpace).reverse.dropWhile pyIsSpace).reverse)

/-- Python `str.lower()` (ASCII letters). -/
def pyLower (s : String) : String :=
  String.mk (s.data.map fun c => if 'A' ≤ c ∧ c ≤ 'Z' then Char.ofNat (c.toNat + 32) else c)

/-- `str.split(",")` on the character list: `""` yields `[""]`. -/
def splitCommaChars : List Char → List (List Char)
  | [] => [[]]
  | c :: cs =>
      if c = ',' then [] :: splitCommaChars cs
      else
        match splitCommaChars cs with
        | [] => [[c]]
        | x :: xs => (c :: x) :: xs

/-- Python `s.split(",")`. -/
def pySplitComma (s : String) : List String :=
  (splitCommaChars s.data).map String.mk

/-- Python `sep.join(parts)`. -/
def pyJoin (sep : String) : List String → String
  | [] => ""
  | [x] => x
  | x :: xs => x ++ sep ++ pyJoin sep xs

/-- `raw.replace("\xa0", " ")` (the pattern is a single character). -/
def pyReplaceNbsp (s : String) : String :=
  String.mk (s.data.map fun c => if c = '\u00A0' then ' ' else c)

/-- `repr(v)` for a Python value (as used by `str` on containers). -/
def pyRepr : PyVal → String
  | .none => "None"
  | .bool true => "True"
  | .bool false => "False"
  | .int n => toString n
  | .str s => "'" ++ s ++ "'"
  | .list xs =>
      "[" ++ pyJoin ", " (xs.attach.map fun x => pyRepr x.1) ++ "]"
  | .dict xs =>
      "\x7b" ++
        pyJoin ", "
          (xs.attach.map fun kv => "'" ++ kv.1.1 ++ "': " ++ pyRepr kv.1.2) ++
        "\x7d"
decreasing_by
  · have := List.sizeOf_lt_of_mem x.2
    simp only [PyVal.list.sizeOf_spec]
    omega
  · have h1 := List.sizeOf_lt_of_mem kv.2
    have h2 : sizeOf kv.1.2 < sizeOf kv.1 := by
      obtain ⟨⟨a, b⟩, hm⟩ := kv
      simp
    simp only [PyVal.dict.sizeOf_spec]
    omega

/-- `str(v)` for a Python value. -/
def pyStr : PyVal → String
  | .str s => s
  | v => pyRepr v

/-- Parse a decimal digit string as a natural number (`int(digits)` where
`digits` is known to consist of digits only). -/
def parseDigits (s : String) : Nat :=
  s.data.foldl (fun a c => a * 10 + (c.toNat - 48)) 0

/-- Python `int(s)` on a string: surrounding whitespace, an optional sign and
a non-empty digit run; `none` models the raised `ValueError`. -/
def pyIntOfString (s : String) : Option Int :=
  let t := (pyStrip s).data
  let core := match t with
    | c :: cs => if c = '-' ∨ c = '+' then cs else t
    | [] => t
  if !core.isEmpty ∧ core.all Char.isDigit then
    some (match t with
      | '-' :: _ => -(parseDigits (String.mk core) : Int)
      | _ => (parseDigits (String.mk core) : Int))
  else
    Option.none

/-- `isinstance(v, int)` together with the integer value; Python `bool` is a
subclass of `int` (`True == 1`, `False == 0`). -/
def pyAsInt : PyVal → Option Int
  | .int n => some n
  | .bool b => some (if b then 1 else 0)
  | _ => Option.none

/-- Exceptions the embedded pipeline can raise. -/
inductive PyErr where
  | typeError
  | attributeError
  deriving DecidableEq

/-! ## `steam_connection.py`: extractors -/

/-- `_extract_clean_text`: falsy input yields `""`; a string is handed to
BeautifulSoup (abstracted by `getText`); a truthy non-string makes
BeautifulSoup raise `TypeError`. -/
def extractCleanText (getText : String → String) : PyVal → Except PyErr String
  | v =>
    if v.truthy then
      match v with
      | .str s => .ok (getText s)
      | _ => .error .typeError
    else
      .ok ""

/-- `_extract_usk_rating`. -/
def extractUskRating (raw : PyDict) : Int :=
  match pyGet raw "ratings" with
  | .dict ratings =>
      match pyGet ratings "usk" with
      | .dict uskData =>
          let rawRating := pyStrip (pyStr (pyGetD uskData "rating" (.str "")))
          let digits := String.mk (rawRating.data.filter Char.isDigit)
          if digits == "" then 0
          else
            let rating : Int := (parseDigits digits : Int)
            if rating = 0 ∨ rating = 6 ∨ rating = 12 ∨ rating = 16 ∨ rating = 18 then
              rating
            else 0
      | _ => 0
  | _ => 0

/-- A raw requirements entry produced by `_extract_platform_requirements`
(the Python dict `{"platform": ..., "minimum": ..., "recommended": ...}`). -/
structure SysReqE where
  platform : String
  minimum : String
  recommended : Option String
  deriving DecidableEq

/-- Loop body of `_extract_platform_requirements` over the platform list. -/
def extractReqsGo (getText : String → String) (raw : PyDict) :
    List String → Except PyErr (List SysReqE)
  | [] => .ok []
  | p :: ps =>
      match pyGet raw (p ++ "_requirements") with
      | .dict pd => do
          let minimum ← extractCleanText getText (pyGetD pd "minimum" (.str ""))
          let recommended ← extractCleanText getText (pyGetD pd "recommended" (.str ""))
          let rest ← extractReqsGo getText raw ps
          if minimum == "" ∧ recommended == "" then
            pure rest
          else
            pure ({ platform := p, minimum := minimum,
                    recommended := if recommended == "" then Option.none else some recommended } :: rest)
      | _ => extractReqsGo getText raw ps

/-- `_extract_platform_requirements`. -/
def extractPlatformRequirements (getText : String → String) (raw : PyDict) :
    Except PyErr (List SysReqE) :=
  extractReqsGo getText raw ["pc", "mac", "linux"]

/-- `_parse_release_date`; `fmtDate` abstracts the four `strptime` formats and
returns the ISO rendering of the first one that parses. -/
def parseReleaseDate (fmtDate : String → Option String) (payload : PyVal) : String :=
  match payload with
  | .dict d =>
      match pyGetD d "date" (.str "") with
      | .str raw =>
          let cleaned := pyStrip (pyReplaceNbsp raw)
          if cleaned == "" then "" else (fmtDate cleaned).getD cleaned
      | _ => ""
  | _ => ""

/-- Genre descriptions collected by the generator inside
`create_game_info_dict`: dict entries with a truthy `description` contribute
their stripped description; `.strip()` on a truthy non-string raises. -/
def extractGenreDescs : List PyVal → Except PyErr (List String)
  | [] => .ok []
  | g :: gs =>
      match g with
      | .dict d =>
          if (pyGet d "description").truthy then
            match pyGetD d "description" (.str "") with
            | .str s => do
                let rest ← extractGenreDescs gs
                pure (pyStrip s :: rest)
            | _ => .error .attributeError
          else
            extractGenreDescs gs
      | _ => extractGenreDescs gs

/-- The `genres` field of `create_game_info_dict` (lines 121–129). -/
def extractGenres (raw : PyDict) : Except PyErr String :=
  match pyGet raw "genres" with
  | .list gs => do
      let descs ← extractGenreDescs gs
      pure (pyJoin ", " descs)
  | _ => .ok ""

/-- The nested `price_overview.final` integer, when present: the payload's
`price_overview` must be a dict and its `final` value must satisfy
`isinstance(., int)` (so Python `bool` counts, with `True == 1`). -/
def finalPriceValue (raw : PyDict) : Option Int :=
  match pyGet raw "price_overview" with
  | .dict po => pyAsInt (pyGet po "final")
  | _ => Option.none

/-- The `price` field of `create_game_info_dict` (lines 131–135). -/
def extractPrice (raw : PyDict) : ℚ :=
  match finalPriceValue raw with
  | some v => (v : ℚ) / 100
  | Option.none => 0

/-- The `platforms` field of `create_game_info_dict` (lines 137–143):
keys whose value `is True`. -/
def extractPlatforms (raw : PyDict) : String :=
  match pyGet raw "platforms" with
  | .dict ps =>
      pyJoin ", "
        ((ps.filter fun kv => match kv.2 with | .bool true => true | _ => false).map (·.1))
  | _ => ""

/-- The `recommendations` field of `create_game_info_dict` (lines 149–153);
the raw `total` value is kept as a Python value. -/
def extractRecommendations (raw : PyDict) : PyVal :=
  match pyGet raw "recommendations" with
  | .dict rd => pyGetD rd "total" (.int 0)
  | _ => .int 0

/-- The intermediate dict built by `create_game_info_dict`. -/
structure AppInfo where
  appid : PyVal
  name : PyVal
  description : String
  system_requirements : List SysReqE
  minimum_requirements : String
  recommended_requirements : Option String
  genres : String
  price : ℚ
  platforms : String
  usk : Int
  release_date : String
  recommendations : PyVal

/-- `create_game_info_dict`. -/
def createGameInfoDict (getText : String → String) (fmtDate : String → Option String)
    (raw : PyDict) : Except PyErr AppInfo := do
  let appid := pyGetD raw "steam_appid" (pyGet raw "appid")
  let name := pyGetD raw "name" (.str "")
  let descriptionHtml := pyOr (pyGet raw "detailed_description")
    (pyOr (pyGet raw "about_the_game") (.str ""))
  let description ← extractCleanText getText descriptionHtml
  let systemRequirements ← extractPlatformRequirements getText raw
  let genres ← extractGenres raw
  pure
    { appid := appid
      name := name
      description := description
      system_requirements := systemRequirements
      minimum_requirements := ""
      recommended_requirements := Option.none
      genres := genres
      price := extractPrice raw
      platforms := extractPlatforms raw
      usk := extractUskRating raw
      release_date := parseReleaseDate fmtDate (pyGet raw "release_date")
      recommendations := extractRecommendations raw }

/-! ## `database/schemas.py`: pydantic validation -/

/-- Validated `SystemRequirementIn` payload. -/
structure SystemRequirementIn where
  platform : String
  minimum : String
  recommended : Option String
  deriving DecidableEq

/-- Validated `GameIn` payload. -/
structure GameIn where
  appid : Option Int
  name : String
  description : String
  genres : String
  usk : Int
  price : ℚ
  platforms : String
  minimum_requirements : String
  recommended_requirements : Option String
  system_requirements : List SystemRequirementIn
  release_date : String
  recommendations : Int
  deriving DecidableEq

/-- Pydantic lax validation of an `int | None` field: `None` and `int` pass
through, a string must parse as an integer, anything else fails.  (Pydantic v2
does not accept `bool` for an `int` field.) -/
def pydanticOptInt : PyVal → Option (Option Int)
  | .none => some Option.none
  | .int n => some (some n)
  | .str s => (pyIntOfString s).map some
  | _ => Option.none

/-- Pydantic v2 validation of a `str` field with `str_strip_whitespace=True`:
only actual strings are accepted, and they are stripped. -/
def pydanticStr : PyVal → Option String
  | .str s => some (pyStrip s)
  | _ => Option.none

/-- `GameIn.normalize_usk` on the (always integer) value produced by
`_extract_usk_rating`. -/
def normalizeUsk (v : Int) : Int :=
  if v = 0 ∨ v = 6 ∨ v = 12 ∨ v = 16 ∨ v = 18 then v else 0

/-- `GameIn.normalize_price` on the (always numeric) value produced by
`create_game_info_dict`: clamp negatives to zero. -/
def normalizePrice (q : ℚ) : ℚ :=
  if 0 ≤ q then q else 0

/-- `GameIn.normalize_recommendations` on an arbitrary raw value: `None`/`""`
give 0, `int(value)` failures give 0, negatives are clamped to 0. -/
def normalizeRecommendations : PyVal → Int
  | .none => 0
  | .int n => if 0 ≤ n then n else 0
  | .bool b => if b then 1 else 0
  | .str s =>
      if s == "" then 0
      else
        match pyIntOfString s with
        | some n => if 0 ≤ n then n else 0
        | Option.none => 0
  | _ => 0

/-- `SystemRequirementIn` validation (`normalize_platform` plus whitespace
stripping of the text fields). -/
def validateSysReq (r : SysReqE) : Option SystemRequirementIn :=
  let normalized := pyLower (pyStrip r.platform)
  if normalized = "pc" ∨ normalized = "mac" ∨ normalized = "linux" then
    some { platform := normalized, minimum := pyStrip r.minimum,
           recommended := r.recommended.map pyStrip }
  else
    Option.none

/-- Pydantic validation of the `system_requirements` list: every element
must validate, elementwise. -/
def validateReqList : List SysReqE → Option (List SystemRequirementIn)
  | [] => some []
  | r :: rest => do
      let v ← validateSysReq r
      let vs ← validateReqList rest
      pure (v :: vs)

/-- `GameIn.model_validate` on the dict built by `create_game_info_dict`:
the `name` field must be a string that is non-empty after stripping, the
`appid` field must pass `int | None` validation, each system requirement must
carry a supported platform; every other field is normalised by a tolerant
validator and cannot fail. -/
def gameInValidate (info : AppInfo) : Option GameIn := do
  let appid ← pydanticOptInt info.appid
  let name ← pydanticStr info.name
  if name == "" then
    Option.none
  else do
    let reqs ← validateReqList info.system_requirements
    pure
      { appid := appid
        name := name
        description := pyStrip info.description
        genres := pyStrip info.genres
        usk := normalizeUsk info.usk
        price := normalizePrice info.price
        platforms := pyStrip info.platforms
        minimum_requirements := pyStrip info.minimum_requirements
        recommended_requirements := info.recommended_requirements.map pyStrip
        system_requirements := reqs
        release_date := pyStrip info.release_date
        recommendations := normalizeRecommendations info.recommendations }

/-! ## `database/db.py`: table rows and the store -/

/-- A persisted `Games` row. -/
structure GameRow where
  id : Nat
  steam_appid : Option Int
  game_name : String
  release_date : String
  recommendations : Int
  description : String
  genres : String
  usk : Int
  price : ℚ
  platforms : String
  deriving DecidableEq

/-- A persisted `GameSystemRequirement` row. -/
structure ReqRow where
  game_id : Nat
  platform : String
  minimum : String
  recommended : Option String
  deriving DecidableEq

/-- A persisted `UserGames` row. -/
structure UserGameRow where
  user_id : Nat
  game_id : Nat
  status : String
  rating : Option Int
  playtime_hours : ℚ
  deriving DecidableEq

/-- The database state touched by the claims: ordered tables plus the
autoincrement counter for `Games.id`. -/
structure Store where
  games : List GameRow
  reqs : List ReqRow
  userGames : List UserGameRow
  nextGameId : Nat
  deriving DecidableEq

/-- A fresh database. -/
def emptyStore : Store :=
  { games := [], reqs := [], userGames := [], nextGameId := 1 }

/-! ## `database/data_handling.py` -/

/-- Python dict assignment `normalized_requirements[req.platform] = req`:
first-insertion key order, last value wins. -/
def dictInsert (m : List (String × SystemRequirementIn)) (k : String)
    (v : SystemRequirementIn) : List (String × SystemRequirementIn) :=
  if m.any (fun kv => kv.1 == k) then
    m.map (fun kv => if kv.1 == k then (kv.1, v) else kv)
  else
    m ++ [(k, v)]

/-- The `normalized_requirements` dict of `save_game_details`, iterated in
`.values()` (key-insertion) order. -/
def normalizeReqs (l : List SystemRequirementIn) : List SystemRequirementIn :=
  (l.foldl (fun m r => dictInsert m r.platform r) []).map (·.2)

/-- `save_game_details`: validate the payload, insert one fresh `Games` row
(`session.add` of a new object — the id is generated by `flush`), and insert
one requirement row per deduplicated platform.  A `ValidationError` is caught
and turned into `False`. -/
def saveGameDetails (info : AppInfo) (st : Store) : Bool × Store :=
  match gameInValidate info with
  | Option.none => (false, st)
  | some g =>
      let gid := st.nextGameId
      let row : GameRow :=
        { id := gid
          steam_appid := g.appid
          game_name := g.name
          release_date := g.release_date
          recommendations := g.recommendations
          description := g.description
          genres := g.genres
          usk := g.usk
          price := g.price
          platforms := g.platforms }
      let newReqs : List ReqRow := (normalizeReqs g.system_requirements).map fun r =>
        { game_id := gid, platform := r.platform, minimum := r.minimum,
          recommended := r.recommended }
      (true,
        { st with
            games := st.games ++ [row]
            reqs := st.reqs ++ newReqs
            nextGameId := gid + 1 })

/-- `get_user_library`: the user's `UserGames` rows (any status) joined with
their `Games` rows. -/
def getUserLibrary (st : Store) (uid : Nat) : List (UserGameRow × GameRow) :=
  (st.userGames.filter (fun r => r.user_id == uid)).filterMap fun rel =>
    (st.games.find? (fun g => g.id == rel.game_id)).map fun g => (rel, g)

/-- Split a genres string on commas, strip, lowercase, drop empties (the
normalisation shared by `get_top_library_genres` and the recommender). -/
def genreTokens (s : String) : List String :=
  ((pySplitComma s).map (fun g => pyLower (pyStrip g))).filter (fun g => !(g == ""))

/-- All normalised genre tokens of a user's library, in row order. -/
def libraryGenreTokens (st : Store) (uid : Nat) : List String :=
  (getUserLibrary st uid).foldr (fun rg acc => genreTokens rg.2.genres ++ acc) []

/-- `Counter[...] += 1`: bump the entry in place, or append a fresh one
(Python dicts keep insertion order). -/
def counterAdd (m : List (String × Nat)) (k : String) : List (String × Nat) :=
  if m.any (fun kv => kv.1 == k) then
    m.map (fun kv => if kv.1 == k then (kv.1, kv.2 + 1) else kv)
  else
    m ++ [(k, 1)]

/-- The `Counter` built by `get_top_library_genres`, as an insertion-ordered
association list. -/
def counterOf (ts : List String) : List (String × Nat) :=
  ts.foldl counterAdd []

/-- Stable insertion into a weakly descending list (by `key`): the new,
originally-earlier element goes before equal keys. -/
def insertDescBy {α β : Type} [LinearOrder β] (key : α → β) (x : α) :
    List α → List α
  | [] => [x]
  | y :: ys => if key y ≤ key x then x :: y :: ys else y :: insertDescBy key x ys

/-- Stable descending sort by `key` — the order produced both by
`Counter.most_common` (`heapq.nlargest`) and by `list.sort(..., reverse=True)`. -/
def stableSortDescBy {α β : Type} [LinearOrder β] (key : α → β) (l : List α) :
    List α :=
  l.foldr (insertDescBy key) []

/-- `Counter.most_common(n)`: count-descending, ties in insertion order. -/
def mostCommon (m : List (String × Nat)) (n : Nat) : List (String × Nat) :=
  (stableSortDescBy (fun kv => kv.2) m).take n

/-- `get_top_library_genres`. -/
def getTopLibraryGenres (st : Store) (uid : Nat) (limit : Int) : List String :=
  (mostCommon (counterOf (libraryGenreTokens st uid)) (max limit 0).toNat).map (·.1)

/-! ## `recommender.py` -/

/-- The recommendation payload. -/
structure Recommendation where
  appid : Option Int
  name : String
  score : ℚ
  reason : String
  deriving DecidableEq

/-- Game ids already in the user's library (any status). -/
def ownedGameIds (st : Store) (uid : Nat) : List Nat :=
  (st.userGames.filter (fun r => r.user_id == uid)).map (·.game_id)

/-- The catalog loop of `get_recommendations_for_user`, before sorting:
skip owned games, skip games with no genre overlap, otherwise build the
scored recommendation.  (`game.id is None` cannot occur for persisted rows;
`game.recommendations or 0` is the identity on the non-null integer column,
so the popularity clamp is `max(recommendations, 0)`.) -/
def recsFor (top : List String) (owned : List Nat) (catalog : List GameRow) :
    List Recommendation :=
  catalog.filterMap fun game =>
    if owned.contains game.id then
      Option.none
    else
      let matched := top.filter (fun t => (genreTokens game.genres).contains t)
      if matched.isEmpty then
        Option.none
      else
        let popularity : Int := max game.recommendations 0
        some
          { appid := game.steam_appid
            name := game.game_name
            score := (matched.length * 100 : ℚ) + ((min popularity 50000 : Int) : ℚ) / 1000
            reason := "Genre-Match: " ++ pyJoin ", " (matched.take 2) }

/-- `get_recommendations_for_user`. -/
def getRecommendationsForUser (st : Store) (uid : Nat) (limit : Int) :
    List Recommendation :=
  if limit ≤ 0 then []
  else
    let top := getTopLibraryGenres st uid 5
    if top.isEmpty then []
    else
      (stableSortDescBy (fun r => r.score)
        (recsFor top (ownedGameIds st uid) st.games)).take limit.toNat

/-! ## `steam_connection.py`: `process_and_save_apps` -/

/-- The log lines `process_and_save_apps` can emit for one item. -/
inductive LogEvent where
  | warnNoAppid (app : PyDict)
  | warnNoDetails (appid : PyVal)
  | savedLog (name : PyVal)
  | errorSaving (name : PyVal)

/-- The summary shape named by the specification (`saved`/`skipped`/`failed`). -/
structure SyncSummary where
  saved : Int
  skipped : Int
  failed : Int
  deriving DecidableEq

/-- `process_and_save_apps`, with the detail fetch (`retrieve_app_details`, a
network call) abstracted as `fetch`.  The Python function's return value is
`None`; the first component of the result models it (always `none`).  The
second component is the emitted log trace, the third the database state. -/
def processAndSaveApps (fetch : PyVal → Option AppInfo) :
    List PyDict → Store → Option SyncSummary × List LogEvent × Store
  | [], st => (Option.none, [], st)
  | app :: rest, st =>
      let appid := pyGet app "appid"
      if !appid.truthy then
        let r := processAndSaveApps fetch rest st
        (r.1, .warnNoAppid app :: r.2.1, r.2.2)
      else
        match fetch appid with
        | some game =>
            let s := saveGameDetails game st
            let ev := if s.1 then LogEvent.savedLog game.name else LogEvent.errorSaving game.name
            let r := processAndSaveApps fetch rest s.2
            (r.1, ev :: r.2.1, r.2.2)
        | Option.none =>
            let r := processAndSaveApps fetch rest st
            (r.1, .warnNoDetails appid :: r.2.1, r.2.2)

/-- Count the classifications visible in the log trace of
`process_and_save_apps`. -/
def traceSummary (logs : List LogEvent) : SyncSummary :=
  { saved := ((logs.filter fun e => match e with
      | .savedLog _ => true | _ => false).length : Int)
    skipped := ((logs.filter fun e => match e with
      | .warnNoAppid _ => true | .warnNoDetails _ => true | _ => false).length : Int)
    failed := ((logs.filter fun e => match e with
      | .errorSaving _ => true | _ => false).length : Int) }

/-! ## Specification-side definitions used for refinement claims -/

/-- First occurrence of each element, in first-seen order. -/
def dedupFirstSeen (l : List String) : List String :=
  l.foldl (fun acc x => if x ∈ acc then acc else acc ++ [x]) []

/-- The spec's wording of the top-genre computation (claim C8): take every
normalised genre token of the user's library, list the distinct genres in
first-seen order, sort them stably by frequency (descending) and keep the
first five. -/
def specTopLibraryGenres (st : Store) (uid : Nat) : List String :=
  let tokens := libraryGenreTokens st uid
  ((stableSortDescBy (fun kv => kv.2)
      ((dedupFirstSeen tokens).map fun g => (g, tokens.count g))).take 5).map (·.1)

/-! ## Concrete fixtures -/

/-- A date parser that recognises none of the four formats (all concrete
payloads below use free-text dates, if any). -/
def noParse : String → Option String := fun _ => Option.none

/-- A catalog game row. -/
def mkGame (i : Nat) (appid : Option Int) (nm gs : String) (rec : Int) : GameRow :=
  { id := i, steam_appid := appid, game_name := nm, release_date := "",
    recommendations := rec, description := "", genres := gs, usk := 0, price := 0,
    platforms := "" }

/-- The spec's recommendation scenario: user 1 owns three games contributing
library genres `["RPG", "RPG", "Action"]`; the catalog additionally holds
game A (genres "RPG, Strategy", popularity 1000) and game B (genres
"Action, RPG", popularity 200), owned by nobody. -/
def scenarioStore : Store :=
  { games := [mkGame 1 Option.none "L1" "RPG" 0, mkGame 2 Option.none "L2" "RPG" 0,
              mkGame 3 Option.none "L3" "Action" 0,
              mkGame 4 (some 400) "A" "RPG, Strategy" 1000,
              mkGame 5 (some 500) "B" "Action, RPG" 200]
    reqs := []
    userGames := [⟨1, 1, "owned", Option.none, 0⟩, ⟨1, 2, "owned", Option.none, 0⟩,
                  ⟨1, 3, "owned", Option.none, 0⟩]
    nextGameId := 6 }

/-- The recommendation the scenario produces for game B. -/
def recB : Recommendation :=
  { appid := some 500, name := "B", score := 200.2, reason := "Genre-Match: rpg, action" }

/-- A well-formed normalized payload (as `save_game_details` receives it). -/
def infoDup : AppInfo :=
  { appid := .int 42, name := .str "Dup Game", description := "",
    system_requirements := [{ platform := "pc", minimum := "min", recommended := Option.none }],
    minimum_requirements := "", recommended_requirements := Option.none, genres := "RPG",
    price := 0, platforms := "windows", usk := 0, release_date := "",
    recommendations := .int 5 }

/-- The validated record for `infoDup`. -/
def gameInDup : GameIn :=
  { appid := some 42, name := "Dup Game", description := "", genres := "RPG", usk := 0,
    price := 0, platforms := "windows", minimum_requirements := "",
    recommended_requirements := Option.none,
    system_requirements := [{ platform := "pc", minimum := "min", recommended := Option.none }],
    release_date := "", recommendations := 5 }

/-- The store after saving `infoDup` once. -/
def dupSaved1 : Store := (saveGameDetails infoDup emptyStore).2

/-- The store after saving `infoDup` twice. -/
def dupSaved2 : Store := (saveGameDetails infoDup dupSaved1).2

/-- Outcome of record building: the pipeline of `create_game_info_dict`
followed by `GameIn.model_validate` either raises during extraction, fails
validation, or yields the validated record. -/
inductive BuildErr where
  | raised (e : PyErr)
  | validationFailed
  deriving DecidableEq

/-- `create_game_info_dict` followed by `GameIn.model_validate` (the record
building the spec calls `RecordBuilder.build`). -/
def buildRecord (getText : String → String) (fmtDate : String → Option String)
    (raw : PyDict) : Except BuildErr GameIn :=
  match createGameInfoDict getText fmtDate raw with
  | .error e => .error (.raised e)
  | .ok info =>
      match gameInValidate info with
      | some g => .ok g
      | Option.none => .error .validationFailed

/-- A payload with a perfectly good name but a non-numeric `steam_appid`. -/
def badAppidPayload : PyDict :=
  [("name", .str "Good Game"), ("steam_appid", .str "abc")]

/-- A payload whose `pc_requirements.minimum` is a truthy non-string. -/
def raisingPayload : PyDict :=
  [("name", .str "G"), ("pc_requirements", .dict [("minimum", .int 5)])]

/-- A payload with a negative `price_overview.final`. -/
def negativePricePayload : PyDict :=
  [("name", .str "G"), ("price_overview", .dict [("final", .int (-500))])]

/-- A genres list with one real description and one whitespace-only one. -/
def whitespaceGenrePayload : PyDict :=
  [("genres", .list [.dict [("description", .str "RPG")],
                     .dict [("description", .str " ")]])]

/-! ## Counterexamples -/

/-- C2 counterexample: `save_game_details` is not an upsert — saving the
same `app_details` twice leaves two game rows with the same stable
identifier (`steam_appid = 42`), not a single canonical record. -/
theorem save_twice_leaves_two_rows :
    (dupSaved2.games.filter (fun g => g.steam_appid == some 42)).length = 2 ∧
    dupSaved1.games.length = 1 ∧ dupSaved2.games.length = 2 := by
  decide

/-- C3 counterexample: even on an input whose single item is fetched and
persisted successfully, `process_and_save_apps` returns `None` — no
`SyncSummary` value is produced. -/
theorem process_and_save_apps_returns_none :
    (processAndSaveApps (fun _ => some infoDup) [[("appid", PyVal.int 42)]] emptyStore).1
        = Option.none ∧
    (saveGameDetails infoDup emptyStore).1 = true := by
  constructor
  · rfl
  · decide

/-- C4 counterexample: a payload whose trimmed name is non-empty but whose
`steam_appid` is a non-numeric string fails `GameIn` validation, so record
building does not succeed for every payload with a non-empty trimmed name. -/
theorem build_fails_despite_nonempty_name :
    buildRecord id noParse badAppidPayload = .error .validationFailed ∧
    pyStrip "Good Game" ≠ "" := by
  constructor
  · rfl
  · decide

/-- C5 counterexample: `create_game_info_dict` raises (a `TypeError` inside
BeautifulSoup) when `pc_requirements.minimum` holds a truthy non-string —
the extractors are not total on arbitrary weakly-typed payloads. -/
theorem createGameInfoDict_raises :
    createGameInfoDict id noParse raisingPayload = .error PyErr.typeError := by
  rfl

unseal Rat.mul Rat.inv in
/-- C6 counterexample: with `price_overview.final = -500` the extracted price
is `-5.0`, which is negative — extraction does not clamp. -/
theorem extractPrice_negative :
    extractPrice negativePricePayload = -5 ∧ extractPrice negativePricePayload < 0 := by
  decide

/-- C7 counterexample: a whitespace-only description is truthy, passes the
filter and contributes an empty trimmed element: the joined string is
`"RPG, "`, not the join `"RPG"` of the non-empty trimmed descriptions. -/
theorem extractGenres_whitespace_entry :
    extractGenres whitespaceGenrePayload = .ok "RPG, " ∧
    "RPG, " ≠ pyJoin ", " ["RPG"] := by
  constructor
  · rfl
  · decide

/-! ## Helper lemmas -/

theorem saveGameDetails_fst (info : AppInfo) (st : Store) :
    (saveGameDetails info st).1 = (gameInValidate info).isSome := by
  unfold saveGameDetails
  cases gameInValidate info <;> rfl

theorem mem_insertDescBy {α β : Type} [LinearOrder β] (key : α → β) (x a : α)
    (l : List α) : a ∈ insertDescBy key x l ↔ a = x ∨ a ∈ l := by
  induction l with
  | nil => simp [insertDescBy]
  | cons y ys ih =>
      simp only [insertDescBy]
      split
      · simp [List.mem_cons]
      · rw [List.mem_cons, ih, List.mem_cons]
        tauto

theorem mem_stableSortDescBy {α β : Type} [LinearOrder β] (key : α → β) (a : α)
    (l : List α) : a ∈ stableSortDescBy key l ↔ a ∈ l := by
  induction l with
  | nil => simp [stableSortDescBy]
  | cons x xs ih =>
      simp only [stableSortDescBy, List.foldr_cons] at ih ⊢
      rw [mem_insertDescBy, ih, List.mem_cons]

theorem recsFor_mem (top : List String) (owned : List Nat) (catalog : List GameRow)
    (r : Recommendation) (h : r ∈ recsFor top owned catalog) :
    ∃ g, g ∈ catalog ∧ owned.contains g.id = false ∧
      top.filter (fun t => (genreTokens g.genres).contains t) ≠ [] ∧
      r.appid = g.steam_appid ∧ r.name = g.game_name ∧
      r.score = (((top.filter (fun t => (genreTokens g.genres).contains t)).length * 100 : ℚ))
        + (((min (max g.recommendations 0) 50000 : Int)) : ℚ) / 1000 := by
  rw [recsFor, List.mem_filterMap] at h
  obtain ⟨g, hg, hf⟩ := h
  refine ⟨g, hg, ?_⟩
  split at hf
  · exact absurd hf (by simp)
  · dsimp only at hf
    split at hf
    · exact absurd hf (by simp)
    · rename_i hnotowned hnotempty
      obtain rfl := Option.some.inj hf
      refine ⟨by simp only [Bool.not_eq_true] at hnotowned; exact hnotowned, ?_, rfl, rfl, rfl⟩
      intro he
      rw [he] at hnotempty
      exact hnotempty rfl

theorem getRecommendations_mem (st : Store) (uid : Nat) (limit : Int)
    (r : Recommendation) (h : r ∈ getRecommendationsForUser st uid limit) :
    r ∈ recsFor (getTopLibraryGenres st uid 5) (ownedGameIds st uid) st.games := by
  unfold getRecommendationsForUser at h
  split at h
  · exact absurd h (List.not_mem_nil r)
  · dsimp only at h
    split at h
    · exact absurd h (List.not_mem_nil r)
    · exact (mem_stableSortDescBy _ r _).mp (List.mem_of_mem_take h)

/-- C10: every recommendation returned by `get_recommendations_for_user`
has score at least 100 (in particular strictly positive): at least one
genre matched, each match contributes 100, and the clamped popularity term
lies in [0, 50]. -/
theorem recommendation_score_at_least_100 (st : Store) (uid : Nat) (limit : Int)
    (r : Recommendation) (h : r ∈ getRecommendationsForUser st uid limit) :
    100 ≤ r.score ∧ 0 < r.score := by
  obtain ⟨g, -, -, hne, -, -, hscore⟩ :=
    recsFor_mem _ _ _ r (getRecommendations_mem st uid limit r h)
  have hm : 1 ≤ (List.filter (fun t => (genreTokens g.genres).contains t)
      (getTopLibraryGenres st uid 5)).length := List.length_pos.mpr hne
  have hq : (0 : Int) ≤ min (max g.recommendations 0) 50000 :=
    le_min (le_max_right _ _) (by norm_num)
  have h1 : (1 : ℚ) ≤ ((List.filter (fun t => (genreTokens g.genres).contains t)
      (getTopLibraryGenres st uid 5)).length : ℚ) := by exact_mod_cast hm
  have h2 : (0 : ℚ) ≤ ((min (max g.recommendations 0) 50000 : Int) : ℚ) / 1000 := by
    apply div_nonneg _ (by norm_num)
    exact_mod_cast hq
  constructor
  · rw [hscore]
    nlinarith
  · rw [hscore]
    nlinarith

unseal Rat.add Rat.mul Rat.inv Rat.sub Rat.ofScientific in
theorem recommendation_score_at_least_100_w :
    recB ∈ getRecommendationsForUser scenarioStore 1 10 ∧ ((100 : ℚ) ≤ recB.score ∧ 0 < recB.score) :=
  ⟨by decide, recommendation_score_at_least_100 scenarioStore 1 10 recB (by decide)⟩

unseal Rat.add Rat.mul Rat.inv Rat.sub Rat.ofScientific in
/-- C1: every recommendation returned by `get_recommendations_for_user`
comes from a catalog game outside the user's library with at least one
profile-genre match, and its score is
`100 × (number of matched profile genres) + min(popularity, 50000) / 1000`
(popularity being the game's stored recommendations count, clamped below at
0); in the spec's scenario game A scores 101.0, game B scores 200.2, and
the returned order is [B, A]. -/
theorem recommendation_score_formula :
    (∀ st : Store, ∀ uid : Nat, ∀ limit : Int, ∀ r : Recommendation,
      r ∈ getRecommendationsForUser st uid limit →
      ∃ g, g ∈ st.games ∧ (ownedGameIds st uid).contains g.id = false ∧
        (getTopLibraryGenres st uid 5).filter (fun t => (genreTokens g.genres).contains t) ≠ [] ∧
        r.appid = g.steam_appid ∧ r.name = g.game_name ∧
        r.score = ((((getTopLibraryGenres st uid 5).filter
              (fun t => (genreTokens g.genres).contains t)).length * 100 : ℚ))
          + (((min (max g.recommendations 0) 50000 : Int)) : ℚ) / 1000)
    ∧ (getRecommendationsForUser scenarioStore 1 10).map (fun r => (r.name, r.score)) =
        [("B", (200.2 : ℚ)), ("A", (101.0 : ℚ))]
    ∧ getTopLibraryGenres scenarioStore 1 5 = ["rpg", "action"] := by
  refine ⟨?_, by decide, by decide⟩
  intro st uid limit r h
  exact recsFor_mem _ _ _ r (getRecommendations_mem st uid limit r h)

unseal Rat.add Rat.mul Rat.inv Rat.sub Rat.ofScientific in
theorem recommendation_score_formula_w :
    recB ∈ getRecommendationsForUser scenarioStore 1 10 ∧
    (∃ g, g ∈ scenarioStore.games ∧ (ownedGameIds scenarioStore 1).contains g.id = false ∧
      (getTopLibraryGenres scenarioStore 1 5).filter
          (fun t => (genreTokens g.genres).contains t) ≠ [] ∧
      recB.appid = g.steam_appid ∧ recB.name = g.game_name ∧
      recB.score = ((((getTopLibraryGenres scenarioStore 1 5).filter
            (fun t => (genreTokens g.genres).contains t)).length * 100 : ℚ))
        + (((min (max g.recommendations 0) 50000 : Int)) : ℚ) / 1000) :=
  ⟨by decide, recommendation_score_formula.1 scenarioStore 1 10 recB (by decide)⟩

/-- C2 (amended): `save_game_details` is a plain insert, not an upsert — every
call whose payload passes validation appends one fresh game row (with a new
surrogate id) regardless of what is already stored, so repeating the call
duplicates the record instead of updating it. -/
theorem saveGameDetails_always_inserts (info : AppInfo) (st : Store) (g : GameIn)
    (h : gameInValidate info = some g) :
    (saveGameDetails info st).1 = true ∧
    (saveGameDetails info st).2.games.length = st.games.length + 1 ∧
    (saveGameDetails info st).2.games.map (·.steam_appid) =
      st.games.map (·.steam_appid) ++ [g.appid] := by
  unfold saveGameDetails
  rw [h]
  exact ⟨rfl, by simp, by simp⟩

theorem saveGameDetails_always_inserts_w :
    gameInValidate infoDup = some gameInDup ∧
    ((saveGameDetails infoDup emptyStore).1 = true ∧
     (saveGameDetails infoDup emptyStore).2.games.length = emptyStore.games.length + 1 ∧
     (saveGameDetails infoDup emptyStore).2.games.map (·.steam_appid) =
       emptyStore.games.map (·.steam_appid) ++ [gameInDup.appid]) :=
  ⟨by decide, saveGameDetails_always_inserts infoDup emptyStore gameInDup (by decide)⟩

/-- C6 (amended): if `price_overview.final` is an integer `v` the extracted
price is `v / 100` — which is negative for negative `v`; otherwise the
extracted price is 0.0.  Non-negativity is established only later, by
`GameIn.normalize_price` during validation. -/
theorem extractPrice_spec :
    (∀ raw v, finalPriceValue raw = some v → extractPrice raw = (v : ℚ) / 100)
    ∧ (∀ raw, finalPriceValue raw = Option.none → extractPrice raw = 0)
    ∧ (∀ info g, gameInValidate info = some g → 0 ≤ g.price) := by
  refine ⟨?_, ?_, ?_⟩
  · intro raw v h
    unfold extractPrice
    rw [h]
  · intro raw h
    unfold extractPrice
    rw [h]
  · intro info g h
    unfold gameInValidate at h
    cases hap : pydanticOptInt info.appid with
    | none => rw [hap] at h; exact absurd h (by simp)
    | some a =>
        rw [hap] at h
        cases hnm : pydanticStr info.name with
        | none => rw [hnm] at h; exact absurd h (by simp)
        | some nm =>
            rw [hnm] at h
            by_cases hempty : nm == ""
            · simp only [Option.bind_eq_bind, Option.some_bind, hempty, if_true] at h
              exact absurd h (by simp)
            · simp only [Option.bind_eq_bind, Option.some_bind, hempty, if_false,
                Bool.false_eq_true] at h
              cases hrq : validateReqList info.system_requirements with
              | none => rw [hrq] at h; exact absurd h (by simp)
              | some reqs =>
                  rw [hrq] at h
                  simp only [Option.some_bind, Option.pure_def, Option.some.injEq] at h
                  subst h
                  simp only [normalizePrice]
                  split
                  · assumption
                  · exact le_refl 0

unseal Rat.mul Rat.inv in
theorem extractPrice_spec_w :
    finalPriceValue negativePricePayload = some (-500) ∧
    extractPrice negativePricePayload = ((-500 : Int) : ℚ) / 100 :=
  ⟨by decide, extractPrice_spec.1 negativePricePayload (-500) (by decide)⟩

/-- One catalog item ends as "saved": it carries a truthy `appid`, the detail
fetch returns a payload, and persistence succeeds (the payload validates). -/
def itemSaved (fetch : PyVal → Option AppInfo) (app : PyDict) : Bool :=
  (pyGet app "appid").truthy &&
    match fetch (pyGet app "appid") with
    | some g => (gameInValidate g).isSome
    | Option.none => false

/-- One catalog item ends as "skipped": no truthy `appid`, or no details. -/
def itemSkipped (fetch : PyVal → Option AppInfo) (app : PyDict) : Bool :=
  !(pyGet app "appid").truthy ||
    match fetch (pyGet app "appid") with
    | some _ => false
    | Option.none => true

/-- One catalog item ends as "failed": details were fetched but persistence
returned `False` (its validation failed). -/
def itemFailed (fetch : PyVal → Option AppInfo) (app : PyDict) : Bool :=
  (pyGet app "appid").truthy &&
    match fetch (pyGet app "appid") with
    | some g => !(gameInValidate g).isSome
    | Option.none => false

/-- C3 (amended): `process_and_save_apps` returns `None` and keeps no
counters; but the classification the spec describes is exactly visible in its
log trace: counting log lines, `saved` counts the items fetched and persisted
successfully, `skipped` counts the items without a truthy identifier plus the
items whose detail fetch returned none, and `failed` counts the items whose
persistence returned failure (validation happens inside `save_game_details`). -/
theorem processAndSaveApps_trace_counts (fetch : PyVal → Option AppInfo)
    (apps : List PyDict) (st : Store) :
    (processAndSaveApps fetch apps st).1 = Option.none ∧
    traceSummary (processAndSaveApps fetch apps st).2.1 =
      { saved := ((apps.filter (itemSaved fetch)).length : Int)
        skipped := ((apps.filter (itemSkipped fetch)).length : Int)
        failed := ((apps.filter (itemFailed fetch)).length : Int) } := by
  induction apps generalizing st with
  | nil => exact ⟨rfl, rfl⟩
  | cons app rest ih =>
      simp only [processAndSaveApps]
      by_cases ht : (pyGet app "appid").truthy
      · simp only [ht, Bool.not_true, Bool.false_eq_true, if_false]
        cases hf : fetch (pyGet app "appid") with
        | none =>
            refine ⟨(ih st).1, ?_⟩
            dsimp only
            simp only [traceSummary, List.filter_cons, itemSaved, itemSkipped, itemFailed,
              ht, hf, Bool.true_and, Bool.not_true, Bool.false_or]
            have h2 := (ih st).2
            simp only [traceSummary, SyncSummary.mk.injEq] at h2
            simp [h2.1, h2.2.1, h2.2.2]
        | some game =>
            refine ⟨(ih (saveGameDetails game st).2).1, ?_⟩
            dsimp only
            have h2 := (ih (saveGameDetails game st).2).2
            simp only [traceSummary, SyncSummary.mk.injEq] at h2
            rw [saveGameDetails_fst]
            cases hv : (gameInValidate game).isSome with
            | true =>
                simp only [if_true]
                simp only [traceSummary, List.filter_cons, itemSaved, itemSkipped, itemFailed,
                  ht, hf, hv, Bool.true_and, Bool.not_true, Bool.false_or]
                simp [h2.1, h2.2.1, h2.2.2]
            | false =>
                simp only [Bool.false_eq_true, if_false]
                simp only [traceSummary, List.filter_cons, itemSaved, itemSkipped, itemFailed,
                  ht, hf, hv, Bool.true_and, Bool.not_true, Bool.false_or]
                simp [h2.1, h2.2.1, h2.2.2]
      · simp only [Bool.not_eq_true] at ht
        simp only [ht, Bool.not_false, if_true]
        refine ⟨(ih st).1, ?_⟩
        have h2 := (ih st).2
        simp only [traceSummary, SyncSummary.mk.injEq] at h2
        simp only [traceSummary, List.filter_cons, itemSaved, itemSkipped, itemFailed,
          ht, Bool.false_and, Bool.not_false, Bool.true_or]
        simp [h2.1, h2.2.1, h2.2.2]

/-- A raw value that text extraction handles without raising: either an
actual string, or falsy (then `_extract_clean_text` short-circuits to `""`,
and the genres generator filters the entry out before calling `.strip()`). -/
def textOk : PyVal → Bool
  | .str _ => true
  | v => !v.truthy

/-- A genres entry that the generator processes without raising. -/
def genreEntryOk : PyVal → Bool
  | .dict d => textOk (pyGet d "description")
  | _ => true

/-- The contribution of one genres entry: dict entries whose `description`
is a truthy string contribute their stripped description. -/
def truthyDescTrim : PyVal → Option String
  | .dict d =>
      if (pyGet d "description").truthy then
        match pyGet d "description" with
        | .str s => some (pyStrip s)
        | _ => Option.none
      else Option.none
  | _ => Option.none

theorem textOk_truthy_str (v : PyVal) (h1 : textOk v = true) (h2 : v.truthy = true) :
    ∃ s, v = PyVal.str s := by
  cases v with
  | str s => exact ⟨s, rfl⟩
  | none => simp [textOk] at h1; simp [h1] at h2
  | bool b => simp [textOk] at h1; simp [h1] at h2
  | int n => simp [textOk] at h1; simp [h1] at h2
  | list xs => simp [textOk] at h1; simp [h1] at h2
  | dict xs => simp [textOk] at h1; simp [h1] at h2

theorem pyGetD_eq_pyGet_of_truthy (d : PyDict) (k : String) (x : PyVal)
    (h : (pyGet d k).truthy = true) : pyGetD d k x = pyGet d k := by
  unfold pyGet pyGetD at h ⊢
  cases hl : d.lookup k with
  | none => rw [hl] at h; simp [Option.getD, PyVal.truthy] at h
  | some v => rfl

theorem extractGenreDescs_ok_entries (gs : List PyVal)
    (h : ∀ g ∈ gs, genreEntryOk g = true) :
    extractGenreDescs gs = .ok (gs.filterMap truthyDescTrim) := by
  induction gs with
  | nil => rfl
  | cons g rest ih =>
      have hrest := ih (fun x hx => h x (List.mem_cons_of_mem g hx))
      cases g with
      | dict d =>
          have hg := h _ (List.mem_cons_self (PyVal.dict d) rest)
          simp only [genreEntryOk] at hg
          simp only [extractGenreDescs, List.filterMap_cons]
          by_cases hd : (pyGet d "description").truthy
          · obtain ⟨s, hs⟩ := textOk_truthy_str _ hg hd
            rw [if_pos hd, pyGetD_eq_pyGet_of_truthy d "description" (.str "") hd, hs, hrest]
            rw [hs] at hd
            simp only [truthyDescTrim, hs, hd, if_true]
            rfl
          · rw [if_neg hd]
            simp only [truthyDescTrim, hd, Bool.false_eq_true, if_false]
            exact hrest
      | none => simpa [extractGenreDescs, truthyDescTrim] using hrest
      | bool b => simpa [extractGenreDescs, truthyDescTrim] using hrest
      | int n => simpa [extractGenreDescs, truthyDescTrim] using hrest
      | str s => simpa [extractGenreDescs, truthyDescTrim] using hrest
      | list xs => simpa [extractGenreDescs, truthyDescTrim] using hrest

/-- C7 (amended): for a payload whose `genres` is a list, the extracted
genres string joins with ", " the trimmed descriptions of exactly the dict
entries whose `description` value is truthy (assuming those values are
strings — a truthy non-string raises instead).  Truthiness is checked before
trimming, so a whitespace-only description passes the filter and contributes
an empty element to the join.  If `genres` is absent or not a list the
result is the empty string. -/
theorem extractGenres_spec :
    (∀ raw gs, pyGet raw "genres" = PyVal.list gs →
        (∀ g ∈ gs, genreEntryOk g = true) →
        extractGenres raw = .ok (pyJoin ", " (gs.filterMap truthyDescTrim)))
    ∧ (∀ raw, (∀ gs, pyGet raw "genres" ≠ PyVal.list gs) →
        extractGenres raw = .ok "") := by
  constructor
  · intro raw gs hg hok
    unfold extractGenres
    rw [hg]
    dsimp only
    rw [extractGenreDescs_ok_entries gs hok]
    rfl
  · intro raw hng
    unfold extractGenres
    split
    · rename_i gs hgs
      exact absurd hgs (hng gs)
    · rfl

theorem extractGenres_spec_w :
    pyGet whitespaceGenrePayload "genres" =
      PyVal.list [.dict [("description", .str "RPG")], .dict [("description", .str " ")]] ∧
    extractGenres whitespaceGenrePayload =
      .ok (pyJoin ", " (([PyVal.dict [("description", .str "RPG")],
                         PyVal.dict [("description", .str " ")]]).filterMap truthyDescTrim)) :=
  ⟨by rfl, extractGenres_spec.1 _ _ (by rfl) (by decide)⟩

theorem extractCleanText_ok (getText : String → String) (v : PyVal)
    (h : textOk v = true) : ∃ s, extractCleanText getText v = .ok s := by
  unfold extractCleanText
  by_cases ht : v.truthy
  · obtain ⟨s, rfl⟩ := textOk_truthy_str v h ht
    exact ⟨getText s, by rw [if_pos ht]⟩
  · exact ⟨"", by rw [if_neg ht]⟩

theorem textOk_pyOr (a b : PyVal) (ha : textOk a = true) (hb : textOk b = true) :
    textOk (pyOr a b) = true := by
  unfold pyOr
  split <;> assumption

/-- A platform slot that requirements extraction handles without raising:
either there is no requirements dict, or its `minimum`/`recommended` values
are strings-or-falsy. -/
def reqPlatformOk (raw : PyDict) (p : String) : Bool :=
  match pyGet raw (p ++ "_requirements") with
  | .dict pd =>
      textOk (pyGetD pd "minimum" (.str "")) && textOk (pyGetD pd "recommended" (.str ""))
  | _ => true

theorem extractReqsGo_ok (getText : String → String) (raw : PyDict) (ps : List String)
    (h : ∀ p ∈ ps, reqPlatformOk raw p = true) :
    ∃ l, extractReqsGo getText raw ps = .ok l := by
  induction ps with
  | nil => exact ⟨[], rfl⟩
  | cons p ps ih =>
      obtain ⟨l, hl⟩ := ih (fun q hq => h q (List.mem_cons_of_mem p hq))
      have hp := h p (List.mem_cons_self p ps)
      unfold extractReqsGo
      cases hpd : pyGet raw (p ++ "_requirements") with
      | dict pd =>
          simp only [reqPlatformOk, hpd, Bool.and_eq_true] at hp
          obtain ⟨m, hm⟩ := extractCleanText_ok getText _ hp.1
          obtain ⟨rc, hrc⟩ := extractCleanText_ok getText _ hp.2
          dsimp only
          rw [hm, hrc, hl]
          dsimp only [Bind.bind, Except.bind]
          split
          · exact ⟨l, rfl⟩
          · exact ⟨_, rfl⟩
      | none => exact ⟨l, hl⟩
      | bool b => exact ⟨l, hl⟩
      | int n => exact ⟨l, hl⟩
      | str s => exact ⟨l, hl⟩
      | list xs => exact ⟨l, hl⟩

/-- The nested values that text handling touches are strings-or-falsy:
the two description candidates, each genre entry's `description`, and each
platform's `minimum`/`recommended`.  On such payloads no extractor raises. -/
def textSafePayload (raw : PyDict) : Bool :=
  textOk (pyGet raw "detailed_description") &&
  (textOk (pyGet raw "about_the_game") &&
  (((match pyGet raw "genres" with
     | .list gs => gs.all genreEntryOk
     | _ => true) : Bool) &&
   (["pc", "mac", "linux"].all (reqPlatformOk raw))))

/-- C5 (amended): the age-rating, price, platforms, release-date and
popularity extractors are total by construction, but text cleaning raises on
truthy non-string values; `create_game_info_dict` never raises provided every
nested rich-text value (description candidates, genre descriptions, platform
requirement texts) is a string or falsy. -/
theorem createGameInfoDict_total_on_text_safe (getText : String → String)
    (fmtDate : String → Option String) (raw : PyDict)
    (h : textSafePayload raw = true) :
    ∃ info, createGameInfoDict getText fmtDate raw = .ok info := by
  simp only [textSafePayload, Bool.and_eq_true] at h
  obtain ⟨h1, h2, h3, h4⟩ := h
  obtain ⟨desc, hdesc⟩ :=
    extractCleanText_ok getText _
      (textOk_pyOr _ _ h1 (textOk_pyOr _ (PyVal.str "") h2 (by rfl)))
  obtain ⟨reqs, hreqs⟩ := extractReqsGo_ok getText raw ["pc", "mac", "linux"]
    (fun p hp => by
      rw [List.all_eq_true] at h4
      exact h4 p hp)
  have hgen : ∃ gstr, extractGenres raw = .ok gstr := by
    unfold extractGenres
    cases hgs : pyGet raw "genres" with
    | list gs =>
        rw [hgs] at h3
        dsimp only at h3 ⊢
        rw [extractGenreDescs_ok_entries gs (by
          rw [List.all_eq_true] at h3
          exact h3)]
        exact ⟨_, rfl⟩
    | none => exact ⟨"", rfl⟩
    | bool b => exact ⟨"", rfl⟩
    | int n => exact ⟨"", rfl⟩
    | str s => exact ⟨"", rfl⟩
    | dict d => exact ⟨"", rfl⟩
  obtain ⟨gstr, hgstr⟩ := hgen
  unfold createGameInfoDict extractPlatformRequirements
  dsimp only
  rw [hdesc, hreqs, hgstr]
  exact ⟨_, rfl⟩

theorem createGameInfoDict_total_on_text_safe_w :
    textSafePayload whitespaceGenrePayload = true ∧
    ∃ info, createGameInfoDict id noParse whitespaceGenrePayload = .ok info :=
  ⟨by decide, createGameInfoDict_total_on_text_safe id noParse _ (by decide)⟩

theorem extractReqsGo_platforms_sublist (getText : String → String) (raw : PyDict)
    (ps : List String) : ∀ l : List SysReqE, extractReqsGo getText raw ps = .ok l →
    List.Sublist (l.map (·.platform)) ps := by
  induction ps with
  | nil =>
      intro l h
      obtain rfl := Except.ok.inj h.symm
      exact List.Sublist.refl []
  | cons p ps ih =>
      intro l h
      unfold extractReqsGo at h
      cases hpd : pyGet raw (p ++ "_requirements") with
      | dict pd =>
          rw [hpd] at h
          dsimp only at h
          cases hm : extractCleanText getText (pyGetD pd "minimum" (.str "")) with
          | error e => rw [hm] at h; exact absurd h (by simp [Bind.bind, Except.bind])
          | ok m =>
              rw [hm] at h
              cases hrc : extractCleanText getText (pyGetD pd "recommended" (.str "")) with
              | error e => rw [hrc] at h; exact absurd h (by simp [Bind.bind, Except.bind])
              | ok rc =>
                  rw [hrc] at h
                  cases hrest : extractReqsGo getText raw ps with
                  | error e => rw [hrest] at h; exact absurd h (by simp [Bind.bind, Except.bind])
                  | ok rest =>
                      rw [hrest] at h
                      dsimp only [Bind.bind, Except.bind] at h
                      split at h
                      · obtain rfl := Except.ok.inj h
                        exact (ih rest hrest).cons p
                      · obtain rfl := Except.ok.inj h
                        exact (ih rest hrest).cons₂ p
      | none => rw [hpd] at h; exact (ih l h).cons p
      | bool b => rw [hpd] at h; exact (ih l h).cons p
      | int n => rw [hpd] at h; exact (ih l h).cons p
      | str s => rw [hpd] at h; exact (ih l h).cons p
      | list xs => rw [hpd] at h; exact (ih l h).cons p

theorem createGameInfoDict_reqs (getText : String → String)
    (fmtDate : String → Option String) (raw : PyDict) (info : AppInfo)
    (hok : createGameInfoDict getText fmtDate raw = .ok info) :
    extractPlatformRequirements getText raw = .ok info.system_requirements := by
  unfold createGameInfoDict at hok
  dsimp only at hok
  cases hd : extractCleanText getText
      (pyOr (pyGet raw "detailed_description")
        (pyOr (pyGet raw "about_the_game") (PyVal.str ""))) with
  | error e => rw [hd] at hok; exact absurd hok (by simp [Bind.bind, Except.bind])
  | ok desc =>
      rw [hd] at hok
      cases hsr : extractPlatformRequirements getText raw with
      | error e => rw [hsr] at hok; exact absurd hok (by simp [Bind.bind, Except.bind])
      | ok l =>
          rw [hsr] at hok
          cases hg : extractGenres raw with
          | error e => rw [hg] at hok; exact absurd hok (by simp [Bind.bind, Except.bind])
          | ok gstr =>
              rw [hg] at hok
              dsimp only [Bind.bind, Except.bind, pure, Except.pure] at hok
              obtain rfl := Except.ok.inj hok
              exact congrArg Except.ok rfl

theorem validateSysReq_isSome_of_platform (r : SysReqE)
    (h : r.platform = "pc" ∨ r.platform = "mac" ∨ r.platform = "linux") :
    (validateSysReq r).isSome = true := by
  unfold validateSysReq
  rcases h with h | h | h <;> rw [h] <;> rfl

theorem validateReqList_isSome (l : List SysReqE)
    (h : ∀ r ∈ l, (validateSysReq r).isSome = true) :
    ∃ v, validateReqList l = some v := by
  induction l with
  | nil => exact ⟨[], rfl⟩
  | cons r rest ih =>
      obtain ⟨vr, hvr⟩ := Option.isSome_iff_exists.mp (h r (List.mem_cons_self r rest))
      obtain ⟨vs, hvs⟩ := ih (fun x hx => h x (List.mem_cons_of_mem r hx))
      exact ⟨vr :: vs, by simp [validateReqList, hvr, hvs]⟩

theorem pydanticStr_eq_some (v : PyVal) (nm : String) (h : pydanticStr v = some nm) :
    ∃ s, v = PyVal.str s ∧ nm = pyStrip s := by
  cases v with
  | str s => exact ⟨s, rfl, (Option.some.inj h).symm⟩
  | none => exact absurd h (by simp [pydanticStr])
  | bool b => exact absurd h (by simp [pydanticStr])
  | int n => exact absurd h (by simp [pydanticStr])
  | list xs => exact absurd h (by simp [pydanticStr])
  | dict xs => exact absurd h (by simp [pydanticStr])

/-- C4 (amended): for payloads that survive extraction, record validation
(`GameIn.model_validate` after `create_game_info_dict`) is insensitive to
age rating, price, platforms, genres, release date, popularity and system
requirements; but it checks `appid` as well as the name.  When the extracted
`appid` value is well-typed (absent/`None`, or an integer), validation
succeeds iff the payload's name is a string whose trim is non-empty; a
payload whose `appid` does not coerce to `int | None` (such as the
counterexample's non-numeric string) fails validation despite a valid name. -/
theorem build_validation_iff (getText : String → String) (fmtDate : String → Option String)
    (raw : PyDict) (info : AppInfo)
    (hok : createGameInfoDict getText fmtDate raw = .ok info)
    (happ : info.appid = PyVal.none ∨ ∃ n, info.appid = PyVal.int n) :
    (gameInValidate info).isSome = true ↔ ∃ s, info.name = PyVal.str s ∧ pyStrip s ≠ "" := by
  have hreqs : ∃ v, validateReqList info.system_requirements = some v := by
    apply validateReqList_isSome
    intro r hr
    apply validateSysReq_isSome_of_platform
    have hsub := extractReqsGo_platforms_sublist getText raw ["pc", "mac", "linux"]
      info.system_requirements (createGameInfoDict_reqs getText fmtDate raw info hok)
    have hm : r.platform ∈ ["pc", "mac", "linux"] :=
      hsub.subset (List.mem_map_of_mem (·.platform) hr)
    simpa using hm
  obtain ⟨v, hv⟩ := hreqs
  have happ2 : ∃ a, pydanticOptInt info.appid = some a := by
    rcases happ with h | ⟨n, h⟩
    · exact ⟨Option.none, by rw [h]; rfl⟩
    · exact ⟨some n, by rw [h]; rfl⟩
  obtain ⟨a, ha⟩ := happ2
  unfold gameInValidate
  rw [ha]
  simp only [Option.bind_eq_bind, Option.some_bind]
  constructor
  · intro hsome
    cases hn : pydanticStr info.name with
    | none => rw [hn] at hsome; simp at hsome
    | some nm =>
        obtain ⟨s, hseq, hnm⟩ := pydanticStr_eq_some info.name nm hn
        refine ⟨s, hseq, ?_⟩
        intro hstrip
        rw [hn] at hsome
        simp only [Option.some_bind] at hsome
        rw [hnm, hstrip] at hsome
        simp at hsome
  · rintro ⟨s, hseq, hne⟩
    rw [hseq]
    simp only [pydanticStr, Option.some_bind]
    have hb : (pyStrip s == "") = false := by
      simpa using hne
    rw [hb]
    simp [hv]

/-- The extracted record of the minimal well-named payload `{"name": "W"}`. -/
def infoW : AppInfo :=
  { appid := PyVal.none, name := PyVal.str "W", description := "",
    system_requirements := [], minimum_requirements := "",
    recommended_requirements := Option.none, genres := "", price := 0,
    platforms := "", usk := 0, release_date := "",
    recommendations := PyVal.int 0 }

theorem build_validation_iff_w :
    createGameInfoDict id noParse [("name", PyVal.str "W")] = .ok infoW ∧
    ((gameInValidate infoW).isSome = true ↔
      ∃ s, infoW.name = PyVal.str s ∧ pyStrip s ≠ "") :=
  ⟨by rfl, build_validation_iff id noParse [("name", PyVal.str "W")] infoW (by rfl) (Or.inl rfl)⟩

theorem mem_dedupFirstSeen_aux (x : String) (ts : List String) :
    ∀ acc : List String,
      (x ∈ ts.foldl (fun acc y => if y ∈ acc then acc else acc ++ [y]) acc ↔
        x ∈ acc ∨ x ∈ ts) := by
  induction ts with
  | nil => intro acc; simp
  | cons a ts ih =>
      intro acc
      rw [List.foldl_cons, ih]
      by_cases ha : a ∈ acc
      · rw [if_pos ha]
        constructor
        · rintro (h | h)
          · exact Or.inl h
          · exact Or.inr (List.mem_cons_of_mem a h)
        · rintro (h | h)
          · exact Or.inl h
          · rcases List.mem_cons.mp h with rfl | h
            · exact Or.inl ha
            · exact Or.inr h
      · rw [if_neg ha]
        simp only [List.mem_append, List.mem_singleton, List.mem_cons]
        tauto

theorem mem_dedupFirstSeen (x : String) (ts : List String) :
    x ∈ dedupFirstSeen ts ↔ x ∈ ts := by
  unfold dedupFirstSeen
  rw [mem_dedupFirstSeen_aux]
  simp

theorem dedupFirstSeen_concat (ts : List String) (t : String) :
    dedupFirstSeen (ts ++ [t]) =
      if t ∈ ts then dedupFirstSeen ts else dedupFirstSeen ts ++ [t] := by
  have h1 : dedupFirstSeen (ts ++ [t]) =
      if t ∈ dedupFirstSeen ts then dedupFirstSeen ts else dedupFirstSeen ts ++ [t] := by
    unfold dedupFirstSeen
    rw [List.foldl_append]
    rfl
  rw [h1]
  by_cases h : t ∈ ts
  · rw [if_pos ((mem_dedupFirstSeen t ts).mpr h), if_pos h]
  · rw [if_neg (fun hc => h ((mem_dedupFirstSeen t ts).mp hc)), if_neg h]

theorem counterOf_concat (ts : List String) (t : String) :
    counterOf (ts ++ [t]) = counterAdd (counterOf ts) t := by
  unfold counterOf
  rw [List.foldl_append]
  rfl

theorem counterOf_eq_spec (ts : List String) :
    counterOf ts = (dedupFirstSeen ts).map (fun g => (g, ts.count g)) := by
  induction ts using List.reverseRecOn with
  | nil => rfl
  | append_singleton ts t ih =>
      rw [counterOf_concat, ih, dedupFirstSeen_concat]
      unfold counterAdd
      by_cases hmem : t ∈ ts
      · have hany : (((dedupFirstSeen ts).map fun g => (g, ts.count g)).any
            (fun kv => kv.1 == t)) = true :=
          List.any_eq_true.mpr ⟨(t, ts.count t),
            List.mem_map_of_mem _ ((mem_dedupFirstSeen t ts).mpr hmem), by simp⟩
        rw [if_pos hmem, hany, if_pos rfl, List.map_map]
        apply List.map_congr_left
        intro g hg
        simp only [Function.comp_apply]
        by_cases hgt : g = t
        · subst hgt
          rw [if_pos (by simp)]
          simp [List.count_append]
        · rw [if_neg (by simpa using hgt)]
          simp only [List.count_append, List.count_singleton]
          rw [if_neg (by simpa using Ne.symm hgt)]
          simp
      · have hany : (((dedupFirstSeen ts).map fun g => (g, ts.count g)).any
            (fun kv => kv.1 == t)) = false := by
          rw [List.any_eq_false]
          intro kv hkv
          simp only [List.mem_map] at hkv
          obtain ⟨g, hg, rfl⟩ := hkv
          intro hbeq
          have hgt : g = t := eq_of_beq (by simpa using hbeq)
          exact hmem ((mem_dedupFirstSeen t ts).mp (hgt ▸ hg))
        rw [if_neg hmem, hany, if_neg (by simp), List.map_append]
        congr 1
        · apply List.map_congr_left
          intro g hg
          have hgt : g ≠ t := fun hc =>
            hmem (hc ▸ (mem_dedupFirstSeen g ts).mp hg)
          simp only [List.count_append, List.count_singleton]
          rw [if_neg (by simpa using Ne.symm hgt)]
          simp
        · simp only [List.map_cons, List.map_nil]
          rw [List.count_append, List.count_eq_zero_of_not_mem hmem]
          simp

/-- C8: `get_top_library_genres(user, 5)` returns the at-most-5 most frequent
normalized genres of the user's library — every library row counts regardless
of status/rating/playtime, genre strings are split on commas with parts
trimmed, lowercased and dropped when empty, frequencies are counted stably
(ties keep first-seen order), and an empty library (or one with no parseable
genres) yields the empty list. -/
theorem top_genres_spec (st : Store) (uid : Nat) :
    getTopLibraryGenres st uid 5 = specTopLibraryGenres st uid ∧
    (libraryGenreTokens st uid = [] → getTopLibraryGenres st uid 5 = []) := by
  have h5 : (max (5 : Int) 0).toNat = 5 := by decide
  have hmain : getTopLibraryGenres st uid 5 = specTopLibraryGenres st uid := by
    unfold getTopLibraryGenres specTopLibraryGenres mostCommon
    rw [counterOf_eq_spec, h5]
  refine ⟨hmain, fun h => ?_⟩
  rw [hmain]
  unfold specTopLibraryGenres
  rw [h]
  rfl

theorem top_genres_spec_w :
    libraryGenreTokens emptyStore 7 = [] ∧ getTopLibraryGenres emptyStore 7 5 = [] :=
  ⟨rfl, (top_genres_spec emptyStore 7).2 rfl⟩

theorem find?_map_bump (k : String) (v : SystemRequirementIn) (p : String) :
    ∀ m : List (String × SystemRequirementIn),
    (m.map (fun kv => if kv.1 == k then (kv.1, v) else kv)).find? (fun kv => kv.1 == p) =
      if p = k then (m.find? (fun kv => kv.1 == k)).map (fun kv => (kv.1, v))
      else m.find? (fun kv => kv.1 == p) := by
  intro m
  induction m with
  | nil => by_cases h : p = k <;> simp [h]
  | cons kv m ih =>
      rw [List.map_cons]
      by_cases hk : (kv.1 == k) = true
      · have hk1 : kv.1 = k := eq_of_beq hk
        rw [if_pos hk]
        by_cases hp : p = k
        · subst hp
          rw [if_pos rfl]
          simp only [List.find?_cons]
          rw [hk]
          rfl
        · have hbp : (kv.1 == p) = false :=
            beq_eq_false_iff_ne.mpr (fun hc => hp (hc ▸ hk1))
          rw [if_neg hp]
          simp only [List.find?_cons]
          rw [hbp]
          dsimp only
          rw [ih, if_neg hp]
      · rw [if_neg hk]
        by_cases hp : p = k
        · subst hp
          rw [if_pos rfl]
          have hbp : (kv.1 == p) = false := by simpa using hk
          simp only [List.find?_cons]
          rw [hbp]
          dsimp only
          rw [ih, if_pos rfl]
        · rw [if_neg hp]
          by_cases hkp : (kv.1 == p) = true
          · simp only [List.find?_cons]
            rw [hkp]
          · have hbp : (kv.1 == p) = false := by simpa using hkp
            simp only [List.find?_cons]
            rw [hbp]
            dsimp only
            rw [ih, if_neg hp]

theorem dictInsert_find (m : List (String × SystemRequirementIn)) (k : String)
    (v : SystemRequirementIn) (p : String) :
    (dictInsert m k v).find? (fun kv => kv.1 == p) =
      if p = k then some (k, v) else m.find? (fun kv => kv.1 == p) := by
  unfold dictInsert
  by_cases hany : m.any (fun kv => kv.1 == k)
  · rw [if_pos hany, find?_map_bump]
    by_cases hp : p = k
    · rw [if_pos hp, if_pos hp]
      have hsome : (m.find? (fun kv => kv.1 == k)).isSome := by
        rw [List.find?_isSome]
        obtain ⟨kv, hkv, hb⟩ := List.any_eq_true.mp hany
        exact ⟨kv, hkv, hb⟩
      obtain ⟨kv0, hkv0⟩ := Option.isSome_iff_exists.mp hsome
      rw [hkv0]
      have hkk : (kv0.1 == k) = true := by
        have h3 := List.find?_some hkv0
        simpa using h3
      simp [eq_of_beq hkk]
    · rw [if_neg hp, if_neg hp]
  · rw [if_neg hany]
    by_cases hp : p = k
    · subst hp
      have hnone : m.find? (fun kv => kv.1 == p) = none := by
        rw [List.find?_eq_none]
        intro kv hkv
        exact fun hb => hany (List.any_eq_true.mpr ⟨kv, hkv, hb⟩)
      rw [List.find?_append, hnone, Option.none_or, if_pos rfl]
      simp
    · rw [List.find?_append, if_neg hp]
      have h2 : ([(k, v)].find? (fun kv => kv.1 == p)) = none := by
        rw [List.find?_eq_none]
        intro x hx
        rw [List.mem_singleton.mp hx]
        simpa using fun hc => hp hc.symm
      rw [h2, Option.or_none]

theorem foldDict_keys (l : List SystemRequirementIn) :
    ∀ kv ∈ l.foldl (fun m r => dictInsert m r.platform r) [], kv.1 = kv.2.platform := by
  induction l using List.reverseRecOn with
  | nil => intro kv hkv; exact absurd hkv (List.not_mem_nil kv)
  | append_singleton l r ih =>
      rw [List.foldl_append, List.foldl_cons, List.foldl_nil]
      intro kv hkv
      unfold dictInsert at hkv
      split at hkv
      · obtain ⟨kv0, hkv0, rfl⟩ := List.mem_map.mp hkv
        by_cases hb : (kv0.1 == r.platform) = true
        · rw [if_pos hb]
          exact eq_of_beq hb
        · rw [if_neg hb]
          exact ih kv0 hkv0
      · rcases List.mem_append.mp hkv with h | h
        · exact ih kv h
        · rw [List.mem_singleton.mp h]

theorem find?_values (p : String) :
    ∀ m : List (String × SystemRequirementIn),
    (∀ kv ∈ m, kv.1 = kv.2.platform) →
    (m.map (·.2)).find? (fun r => r.platform == p) =
      (m.find? (fun kv => kv.1 == p)).map (·.2) := by
  intro m
  induction m with
  | nil => intro _; rfl
  | cons kv m ih =>
      intro h
      have hk := h kv (List.mem_cons_self kv m)
      rw [List.map_cons]
      by_cases hb : (kv.2.platform == p) = true
      · simp only [List.find?_cons]
        rw [hb, show (kv.1 == p) = true from by simpa [hk] using hb]
        rfl
      · have hb2 : (kv.2.platform == p) = false := by simpa using hb
        simp only [List.find?_cons]
        rw [hb2, show (kv.1 == p) = false from by simpa [hk] using hb2]
        dsimp only
        exact ih (fun x hx => h x (List.mem_cons_of_mem kv hx))

theorem normalizeReqs_find (l : List SystemRequirementIn) (p : String) :
    (normalizeReqs l).find? (fun r => r.platform == p) =
      l.reverse.find? (fun r => r.platform == p) := by
  induction l using List.reverseRecOn with
  | nil => rfl
  | append_singleton l r ih =>
      unfold normalizeReqs at ih ⊢
      rw [List.foldl_append, List.foldl_cons, List.foldl_nil]
      have hkeys : ∀ kv ∈ (l ++ [r]).foldl (fun m q => dictInsert m q.platform q) [],
          kv.1 = kv.2.platform := foldDict_keys (l ++ [r])
      rw [List.foldl_append, List.foldl_cons, List.foldl_nil] at hkeys
      rw [find?_values p _ hkeys, dictInsert_find, List.reverse_append]
      simp only [List.reverse_cons, List.reverse_nil, List.nil_append, List.cons_append,
        List.nil_append]
      by_cases hp : p = r.platform
      · rw [if_pos hp]
        rw [List.find?_cons_of_pos _ (by simp [hp])]
        rfl
      · rw [if_neg hp]
        rw [List.find?_cons_of_neg _ (by simpa using fun hc => hp hc.symm)]
        rw [← ih, find?_values p _ (foldDict_keys l)]

theorem dictInsert_keys (m : List (String × SystemRequirementIn)) (k : String)
    (v : SystemRequirementIn) :
    (dictInsert m k v).map (·.1) =
      if m.any (fun kv => kv.1 == k) then m.map (·.1) else m.map (·.1) ++ [k] := by
  unfold dictInsert
  split
  · rw [List.map_map]
    apply List.map_congr_left
    intro kv _
    dsimp only [Function.comp_apply]
    split <;> rfl
  · simp

theorem foldDict_keys_nodup (l : List SystemRequirementIn) :
    ((l.foldl (fun m r => dictInsert m r.platform r) []).map (·.1)).Nodup := by
  induction l using List.reverseRecOn with
  | nil => exact List.nodup_nil
  | append_singleton l r ih =>
      rw [List.foldl_append, List.foldl_cons, List.foldl_nil, dictInsert_keys]
      split
      · exact ih
      · rename_i hany
        rw [List.nodup_append]
        refine ⟨ih, List.nodup_singleton _, ?_⟩
        intro a ha hb
        rw [List.mem_singleton.mp hb] at ha
        obtain ⟨kv, hkv, hkva⟩ := List.mem_map.mp ha
        exact hany (List.any_eq_true.mpr ⟨kv, hkv, by simp [hkva]⟩)

theorem normalizeReqs_platforms_nodup (l : List SystemRequirementIn) :
    ((normalizeReqs l).map (·.platform)).Nodup := by
  unfold normalizeReqs
  rw [List.map_map]
  have heq : (l.foldl (fun m r => dictInsert m r.platform r) []).map
        ((fun r => r.platform) ∘ (·.2)) =
      (l.foldl (fun m r => dictInsert m r.platform r) []).map (·.1) :=
    List.map_congr_left (fun kv hkv => (foldDict_keys l kv hkv).symm)
  rw [heq]
  exact foldDict_keys_nodup l

theorem saveGameDetails_req_keys_nodup (info : AppInfo) (st : Store)
    (hnd : (st.reqs.map (fun r => (r.game_id, r.platform))).Nodup)
    (hfresh : ∀ r ∈ st.reqs, r.game_id ≠ st.nextGameId) :
    ((saveGameDetails info st).2.reqs.map (fun r => (r.game_id, r.platform))).Nodup := by
  unfold saveGameDetails
  cases hv : gameInValidate info with
  | none => exact hnd
  | some g =>
      dsimp only
      rw [List.map_append, List.nodup_append]
      refine ⟨hnd, ?_, ?_⟩
      · rw [List.map_map]
        have heq : (normalizeReqs g.system_requirements).map
              ((fun r => (r.game_id, r.platform)) ∘ fun r =>
                ({ game_id := st.nextGameId, platform := r.platform,
                   minimum := r.minimum, recommended := r.recommended } : ReqRow)) =
            (normalizeReqs g.system_requirements).map
              (fun r => (st.nextGameId, r.platform)) := rfl
        rw [heq]
        have h2 : (normalizeReqs g.system_requirements).map
              (fun r => (st.nextGameId, r.platform)) =
            ((normalizeReqs g.system_requirements).map (·.platform)).map
              (fun p => (st.nextGameId, p)) := by
          rw [List.map_map]
          rfl
        rw [h2]
        exact (normalizeReqs_platforms_nodup g.system_requirements).map
          (fun a b hab => by simpa using congrArg Prod.snd hab)
      · intro a ha hb
        obtain ⟨rold, hrold, hra⟩ := List.mem_map.mp ha
        obtain ⟨rnew, hrnew, hrb⟩ := List.mem_map.mp hb
        obtain ⟨q, hq, hqr⟩ := List.mem_map.mp hrnew
        apply hfresh rold hrold
        have h1 : a.1 = rold.game_id := by rw [← hra]
        have h2 : a.1 = st.nextGameId := by
          rw [← hrb, ← hqr]
        rw [← h1, h2]

/-- C9: at most one system requirement row ever exists per (game, platform)
pair.  Extraction produces at most one entry per platform, all drawn from
{pc, mac, linux}; `save_game_details` deduplicates the validated list by
platform keeping the last entry (`normalized_requirements[req.platform] = req`
in a dict, looked up here through `find?` against the reversed list); and a
store whose requirement keys are unique keeps unique keys across a save,
because the inserted rows share the fresh game id and have pairwise distinct
platforms. -/
theorem req_per_platform_unique :
    (∀ getText : String → String, ∀ raw : PyDict, ∀ l : List SysReqE,
      extractPlatformRequirements getText raw = .ok l →
      (l.map (·.platform)).Nodup ∧ ∀ r ∈ l, r.platform ∈ ["pc", "mac", "linux"])
    ∧ (∀ l : List SystemRequirementIn, ∀ p : String,
      (normalizeReqs l).find? (fun r => r.platform == p) =
        l.reverse.find? (fun r => r.platform == p))
    ∧ (∀ l : List SystemRequirementIn, ((normalizeReqs l).map (·.platform)).Nodup)
    ∧ (∀ info : AppInfo, ∀ st : Store,
      (st.reqs.map (fun r => (r.game_id, r.platform))).Nodup →
      (∀ r ∈ st.reqs, r.game_id ≠ st.nextGameId) →
      ((saveGameDetails info st).2.reqs.map (fun r => (r.game_id, r.platform))).Nodup) := by
  refine ⟨?_, normalizeReqs_find, normalizeReqs_platforms_nodup,
    saveGameDetails_req_keys_nodup⟩
  intro getText raw l h
  have hsub := extractReqsGo_platforms_sublist getText raw ["pc", "mac", "linux"] l h
  exact ⟨hsub.nodup (by decide), fun r hr =>
    hsub.subset (List.mem_map_of_mem (·.platform) hr)⟩

theorem req_per_platform_unique_w :
    ((emptyStore.reqs.map (fun r => (r.game_id, r.platform))).Nodup ∧
      ∀ r ∈ emptyStore.reqs, r.game_id ≠ emptyStore.nextGameId) ∧
    ((saveGameDetails infoDup emptyStore).2.reqs.map
      (fun r => (r.game_id, r.platform))).Nodup :=
  ⟨⟨List.nodup_nil, fun r hr => absurd hr (List.not_mem_nil r)⟩,
    req_per_platform_unique.2.2.2 infoDup emptyStore List.nodup_nil
      (fun r hr => absurd hr (List.not_mem_nil r))⟩
